import Mathlib

/-!
Verification of the IMDB movie-review dataset adapter
(`tensorflow_datasets/text/imdb.py`).

The adapter lists the `pos` and `neg` subdirectories of a split directory,
reads every file, strips surrounding whitespace, and yields (text, label)
pairs; at split-setup time it extracts the archive, conditionally builds a
subword vocabulary from the training corpus, and registers the `train` and
`test` splits with 10 shards each.

The filesystem is modelled as a pair of functions (directory listing and
fallible file read).  A generator run is modelled as the list of examples
already yielded together with a success flag: the flag is `false` exactly
when some file read raised an I/O error, in which case the list holds the
examples yielded strictly before the failure (the Python generator is lazy,
so earlier yields have already been consumed when a later read fails).
-/

namespace IMDB

/-- The two class labels of the dataset. -/
inductive Label where
  | pos
  | neg
deriving DecidableEq, Repr

/-- A raw example as yielded by `_generate_examples`: the stripped file
content and the label derived from the subdirectory. -/
structure Example where
  text : String
  label : Label
deriving DecidableEq, Repr

/-- ASCII whitespace recognised by Python's `str.strip()` (the model is
restricted to ASCII; Python additionally strips other Unicode whitespace,
which no claim exercises). -/
def isPySpace (c : Char) : Bool :=
  c = ' ' || c = '\t' || c = '\n' || c = '\x0b' || c = '\x0c' || c = '\r'

/-- Python `str.strip()` on the character list: drop whitespace from the
front, then from the back. -/
def pyStripList (l : List Char) : List Char :=
  ((l.dropWhile isPySpace).reverse.dropWhile isPySpace).reverse

/-- Python `str.strip()`: remove leading and trailing whitespace. -/
def pyStrip (s : String) : String :=
  String.mk (pyStripList s.data)

/-- The filesystem interface the generator uses: `tf.gfile.ListDirectory`
and `tf.gfile.Open(...).read()`.  A read returning `none` models an I/O
error (unreadable or unopenable file). -/
structure FS where
  listDir : String → List String
  readFile : String → Option String

/-- `os.path.join` for one extra component (POSIX, relative component). -/
def pathJoin (a b : String) : String := a ++ "/" ++ b

/-- The inner loop of `_generate_examples` for one labelled subdirectory
`d`: read each file of `files` in order, yield the stripped content with
`label`; on the first failing read, stop with the failure flag. -/
def genFiles (fs : FS) (d : String) (label : Label) :
    List String → List Example × Bool
  | [] => ([], true)
  | f :: rest =>
    match fs.readFile (pathJoin d f) with
    | none => ([], false)
    | some content =>
      let r := genFiles fs d label rest
      ({ text := pyStrip content, label := label } :: r.1, r.2)

/-- `IMDBReviews._generate_examples(directory)`: all files under
`directory/pos` (label `pos`) in listing order, then all files under
`directory/neg` (label `neg`); an I/O error during the `pos` pass aborts
before the `neg` pass starts. -/
def generate_examples (fs : FS) (directory : String) : List Example × Bool :=
  let pos_dir := pathJoin directory "pos"
  let neg_dir := pathJoin directory "neg"
  let rp := genFiles fs pos_dir Label.pos (fs.listDir pos_dir)
  if rp.2 then
    let rn := genFiles fs neg_dir Label.neg (fs.listDir neg_dir)
    (rp.1 ++ rn.1, rn.2)
  else rp

/-- `IMDBReviews._vocab_text_gen(train_dir)`: iterate the example generator
and yield only the text field of each example; a read failure propagates at
the same point. -/
def vocab_text_gen (fs : FS) (train_dir : String) : List String × Bool :=
  let r := generate_examples fs train_dir
  (r.1.map Example.text, r.2)

/-- The text-encoding strategy bound by a builder configuration. -/
inductive EncoderStrategy where
  | plainText
  | byteLevel
  | subword (vocab_size : Nat)
deriving DecidableEq, Repr

/-- `IMDBReviewsConfig`: a named variant binding a version tag and a
text-encoding strategy. -/
structure IMDBReviewsConfig where
  name : String
  version : String
  strategy : EncoderStrategy
deriving DecidableEq, Repr

/-- `IMDBReviews.BUILDER_CONFIGS`: the four variants declared in the
source. -/
def BUILDER_CONFIGS : List IMDBReviewsConfig :=
  [ { name := "plain_text", version := "0.0.1", strategy := .plainText },
    { name := "bytes", version := "0.0.1", strategy := .byteLevel },
    { name := "subwords8k", version := "0.0.1", strategy := .subword (2 ^ 13) },
    { name := "subwords32k", version := "0.0.1", strategy := .subword (2 ^ 15) } ]

/-- `tfds.features.ClassLabel(names=...)`: a class-label feature carrying
its ordered list of class names. -/
structure ClassLabel where
  names : List String
deriving DecidableEq, Repr

/-- Modelled from the spec: the framework's `ClassLabel` feature (not under
`src/`) encodes a class name as its index in the `names` list. -/
def ClassLabel.encode (c : ClassLabel) (n : String) : Nat :=
  c.names.indexOf n

/-- The feature schema built in `_info`: a text feature configured by the
active strategy and the class-label feature. -/
structure FeaturesDict where
  text : EncoderStrategy
  label : ClassLabel
deriving DecidableEq, Repr

/-- The dataset metadata `_info` returns (fields the claims touch; the
free-text description and citation are omitted). -/
structure DatasetInfo where
  version : String
  config_name : String
  features : FeaturesDict
  supervised_keys : String × String
  urls : List String
  size_in_bytes : Nat
deriving DecidableEq, Repr

/-- One mebibyte, `tfds.units.MiB`. -/
def MiB : Nat := 1024 * 1024

/-- `IMDBReviews._info()`. -/
def info (cfg : IMDBReviewsConfig) : DatasetInfo :=
  { version := cfg.version,
    config_name := cfg.name,
    features :=
      { text := cfg.strategy,
        label := { names := ["neg", "pos"] } },
    supervised_keys := ("text", "label"),
    urls := ["http://ai.stanford.edu/~amaas/data/sentiment/"],
    size_in_bytes := 85 * MiB }

/-- `tfds.core.SplitGenerator`: split name, shard count, and the generator
keyword argument `directory`. -/
structure SplitGenerator where
  name : String
  num_shards : Nat
  directory : String
deriving DecidableEq, Repr

/-- The download-manager capability used by `_split_generators`. -/
structure DLManager where
  download_and_extract : String → String

/-- The archive URL `_DOWNLOAD_URL`. -/
def _DOWNLOAD_URL : String :=
  "http://ai.stanford.edu/~amaas/data/sentiment/aclImdb_v1.tar.gz"

/-- Modelled from the spec: `maybe_build_from_corpus` (framework feature
code, not under `src/`) builds a subword vocabulary from the given corpus
exactly when the active text-encoding strategy is subword-based, and does
nothing otherwise.  The model returns the number of vocabulary builds
performed by the call. -/
def maybe_build_from_corpus (strategy : EncoderStrategy)
    (_corpus : List String) : Nat :=
  match strategy with
  | .subword _ => 1
  | _ => 0

/-- `IMDBReviews._split_generators(dl_manager)`: extract the archive, run
the conditional vocabulary build over the training directory, and return
the two split generators.  The second component counts the vocabulary
builds performed during the call. -/
def split_generators (cfg : IMDBReviewsConfig) (fs : FS) (dl : DLManager) :
    List SplitGenerator × Nat :=
  let imdb_path := dl.download_and_extract _DOWNLOAD_URL
  let train_dir := pathJoin (pathJoin imdb_path "aclImdb") "train"
  let test_dir := pathJoin (pathJoin imdb_path "aclImdb") "test"
  let vocab_builds :=
    maybe_build_from_corpus cfg.strategy (vocab_text_gen fs train_dir).1
  ([ { name := "train", num_shards := 10, directory := train_dir },
     { name := "test", num_shards := 10, directory := test_dir } ],
   vocab_builds)

/-- Whether a file entry (full path and label) can be read. -/
def readOk (fs : FS) (e : String × Label) : Bool :=
  (fs.readFile e.1).isSome

/-- The example a readable file entry yields. -/
def mkExample (fs : FS) (e : String × Label) : Example :=
  { text := pyStrip ((fs.readFile e.1).getD ""), label := e.2 }

/-- The full work list of `_generate_examples`: the `pos` listing then the
`neg` listing, each entry paired with its label. -/
def allFiles (fs : FS) (directory : String) : List (String × Label) :=
  let pos_dir := pathJoin directory "pos"
  let neg_dir := pathJoin directory "neg"
  (fs.listDir pos_dir).map (fun f => (pathJoin pos_dir f, Label.pos))
    ++ (fs.listDir neg_dir).map (fun f => (pathJoin neg_dir f, Label.neg))

/-! ### Helper lemmas -/

theorem dropWhile_dropWhile {α : Type} (p : α → Bool) (l : List α) :
    (l.dropWhile p).dropWhile p = l.dropWhile p := by
  induction l with
  | nil => rfl
  | cons a t ih =>
    by_cases h : p a
    · simpa [List.dropWhile_cons, h] using ih
    · simp [List.dropWhile_cons, h]

theorem dropWhile_head_false {α : Type} (p : α → Bool) :
    ∀ (l : List α) (c : α) (t : List α), l.dropWhile p = c :: t → p c = false := by
  intro l
  induction l with
  | nil => intro c t h; cases h
  | cons a s ih =>
    intro c t h
    by_cases ha : p a
    · exact ih c t (by simpa [List.dropWhile_cons, ha] using h)
    · rw [List.dropWhile_cons, if_neg (by simpa using ha)] at h
      cases h
      simpa using ha

theorem exists_append_dropWhile {α : Type} (p : α → Bool) (l : List α) :
    ∃ s, s ++ l.dropWhile p = l := by
  induction l with
  | nil => exact ⟨[], rfl⟩
  | cons a t ih =>
    by_cases h : p a
    · obtain ⟨s, hs⟩ := ih
      exact ⟨a :: s, by simp [List.dropWhile_cons, h, hs]⟩
    · exact ⟨[], by simp [List.dropWhile_cons, h]⟩

theorem pyStripList_idem (l : List Char) :
    pyStripList (pyStripList l) = pyStripList l := by
  unfold pyStripList
  set m := l.dropWhile isPySpace with hm
  set d := m.reverse.dropWhile isPySpace with hd
  have step1 : d.reverse.dropWhile isPySpace = d.reverse := by
    cases hrev : d.reverse with
    | nil => simp
    | cons c t =>
      obtain ⟨s, hs⟩ := exists_append_dropWhile isPySpace m.reverse
      rw [← hd] at hs
      have hm_eq : m = d.reverse ++ s.reverse := by
        have := congrArg List.reverse hs
        simpa using this.symm
      have hc : isPySpace c = false := by
        apply dropWhile_head_false isPySpace l c (t ++ s.reverse)
        rw [← hm, hm_eq, hrev]
        simp
      simp [List.dropWhile_cons, hc]
  rw [step1, List.reverse_reverse, hd, dropWhile_dropWhile]

theorem pyStrip_idem (s : String) : pyStrip (pyStrip s) = pyStrip s := by
  unfold pyStrip
  exact congrArg String.mk (pyStripList_idem s.data)

theorem genFiles_eq (fs : FS) (d : String) (label : Label)
    (files : List String) :
    genFiles fs d label files =
      (((files.map (fun f => (pathJoin d f, label))).takeWhile
          (readOk fs)).map (mkExample fs),
        (files.map (fun f => (pathJoin d f, label))).all (readOk fs)) := by
  induction files with
  | nil => rfl
  | cons f rest ih =>
    simp only [genFiles, List.map_cons]
    cases h : fs.readFile (pathJoin d f) with
    | none =>
      simp [List.takeWhile_cons, List.all_cons, readOk, h]
    | some c =>
      simp [List.takeWhile_cons, List.all_cons, readOk, h, ih, mkExample]

theorem takeWhile_append_all {α : Type} (p : α → Bool) (l1 l2 : List α)
    (h : l1.all p = true) :
    (l1 ++ l2).takeWhile p = l1 ++ l2.takeWhile p := by
  induction l1 with
  | nil => rfl
  | cons a t ih =>
    simp only [List.all_cons, Bool.and_eq_true] at h
    simp [List.takeWhile_cons, h.1, ih h.2]

theorem takeWhile_append_not_all {α : Type} (p : α → Bool) (l1 l2 : List α)
    (h : l1.all p = false) :
    (l1 ++ l2).takeWhile p = l1.takeWhile p := by
  induction l1 with
  | nil => cases h
  | cons a t ih =>
    by_cases ha : p a
    · simp only [List.all_cons, ha, Bool.true_and] at h
      simp [List.takeWhile_cons, ha, ih h]
    · simp [List.takeWhile_cons, ha]

theorem generate_examples_eq (fs : FS) (directory : String) :
    generate_examples fs directory =
      (((allFiles fs directory).takeWhile (readOk fs)).map (mkExample fs),
        (allFiles fs directory).all (readOk fs)) := by
  simp only [generate_examples, allFiles]
  rw [genFiles_eq, genFiles_eq]
  cases hall : ((fs.listDir (pathJoin directory "pos")).map
      (fun f => (pathJoin (pathJoin directory "pos") f, Label.pos))).all
      (readOk fs) with
  | false =>
    simp [hall, takeWhile_append_not_all _ _ _ hall, List.all_append]
  | true =>
    have hself : ((fs.listDir (pathJoin directory "pos")).map
        (fun f => (pathJoin (pathJoin directory "pos") f, Label.pos))).takeWhile
        (readOk fs) = (fs.listDir (pathJoin directory "pos")).map
        (fun f => (pathJoin (pathJoin directory "pos") f, Label.pos)) := by
      rw [List.takeWhile_eq_self_iff]
      intro a ha
      exact List.all_eq_true.mp hall a ha
    simp [hall, takeWhile_append_all _ _ _ hall, List.all_append, hself]

theorem map_snd_labelled (files : List String) (d : String) (label : Label) :
    (files.map (fun f => (pathJoin d f, label))).map Prod.snd =
      List.replicate files.length label := by
  rw [List.map_map]
  exact List.map_const' files label

theorem mkExample_label (fs : FS) (e : String × Label) :
    (mkExample fs e).label = e.2 := rfl

theorem map_label_all_ok (fs : FS) (directory : String)
    (h : (allFiles fs directory).all (readOk fs) = true) :
    (generate_examples fs directory).1.map Example.label =
      List.replicate (fs.listDir (pathJoin directory "pos")).length Label.pos
        ++ List.replicate (fs.listDir (pathJoin directory "neg")).length
            Label.neg := by
  rw [generate_examples_eq]
  have hself : (allFiles fs directory).takeWhile (readOk fs) =
      allFiles fs directory := by
    rw [List.takeWhile_eq_self_iff]
    intro a ha
    exact List.all_eq_true.mp h a ha
  simp only [hself, List.map_map]
  have : (Example.label ∘ mkExample fs) = Prod.snd := rfl
  rw [this]
  unfold allFiles
  simp only [List.map_append, map_snd_labelled]

theorem map_snd_allFiles (fs : FS) (d : String) :
    (allFiles fs d).map Prod.snd
      = List.replicate (fs.listDir (pathJoin d "pos")).length Label.pos
        ++ List.replicate (fs.listDir (pathJoin d "neg")).length Label.neg := by
  simp only [allFiles, List.map_append, map_snd_labelled]

theorem takeWhile_length_lt {α : Type} (p : α → Bool) (l : List α)
    (h : l.all p = false) : (l.takeWhile p).length < l.length := by
  induction l with
  | nil => cases h
  | cons a t ih =>
    by_cases ha : p a
    · simp only [List.all_cons, ha, Bool.true_and] at h
      simpa [List.takeWhile_cons, ha] using Nat.succ_lt_succ (ih h)
    · simp [List.takeWhile_cons, ha]

/-! ### Concrete fixtures -/

/-- The spec's example scenario: one review `"Great movie!\n"` under
`train/pos`, nothing under `train/neg`. -/
def exampleFS : FS :=
  { listDir := fun p => if p = "train/pos" then ["review.txt"] else [],
    readFile := fun p =>
      if p = "train/pos/review.txt" then some "Great movie!\n" else none }

/-- A corpus with one readable file in each subdirectory of `root`. -/
def smallFS : FS :=
  { listDir := fun p =>
      if p = "root/pos" then ["a.txt"]
      else if p = "root/neg" then ["b.txt"]
      else [],
    readFile := fun p =>
      if p = "root/pos/a.txt" then some " good "
      else if p = "root/neg/b.txt" then some "bad\n"
      else none }

/-- A corpus whose second `pos` file cannot be read. -/
def failFS : FS :=
  { listDir := fun p => if p = "root/pos" then ["a.txt", "broken.txt"] else [],
    readFile := fun p => if p = "root/pos/a.txt" then some "ok" else none }

/-- An empty filesystem. -/
def emptyFS : FS := { listDir := fun _ => [], readFile := fun _ => none }

/-- A download manager that extracts to a fixed path. -/
def fixedDL : DLManager := { download_and_extract := fun _ => "tmp" }

/-- The `subwords8k` builder configuration. -/
def subwords8kConfig : IMDBReviewsConfig :=
  { name := "subwords8k", version := "0.0.1", strategy := .subword (2 ^ 13) }

/-! ### Claims -/

/-- C1: for a directory whose `pos` listing has N files and whose `neg`
listing has M files, a successful run of `generate_examples` yields exactly
N+M examples, the first N (in listing order) labelled `pos` and the
remaining M labelled `neg`. -/
theorem claim_C1 (fs : FS) (d : String)
    (h : (generate_examples fs d).2 = true) :
    (generate_examples fs d).1.length
        = (fs.listDir (pathJoin d "pos")).length
          + (fs.listDir (pathJoin d "neg")).length
      ∧ ((generate_examples fs d).1.take
            (fs.listDir (pathJoin d "pos")).length).map Example.label
          = List.replicate (fs.listDir (pathJoin d "pos")).length Label.pos
      ∧ ((generate_examples fs d).1.drop
            (fs.listDir (pathJoin d "pos")).length).map Example.label
          = List.replicate (fs.listDir (pathJoin d "neg")).length Label.neg := by
  have hall : (allFiles fs d).all (readOk fs) = true := by
    rw [generate_examples_eq] at h
    exact h
  have hmap := map_label_all_ok fs d hall
  have hlen : ((generate_examples fs d).1.map Example.label).length
      = (fs.listDir (pathJoin d "pos")).length
        + (fs.listDir (pathJoin d "neg")).length := by
    rw [hmap]
    simp
  refine ⟨by simpa using hlen, ?_, ?_⟩
  · rw [List.map_take, hmap, List.take_left']
    simp
  · rw [List.map_drop, hmap, List.drop_left']
    simp

/-- C1 witness: a corpus with one `pos` file and one `neg` file. -/
theorem claim_C1_witness :
    (generate_examples smallFS "root").2 = true
      ∧ ((generate_examples smallFS "root").1.length
            = (smallFS.listDir (pathJoin "root" "pos")).length
              + (smallFS.listDir (pathJoin "root" "neg")).length
          ∧ ((generate_examples smallFS "root").1.take
                (smallFS.listDir (pathJoin "root" "pos")).length).map
                Example.label
              = List.replicate
                  (smallFS.listDir (pathJoin "root" "pos")).length Label.pos
          ∧ ((generate_examples smallFS "root").1.drop
                (smallFS.listDir (pathJoin "root" "pos")).length).map
                Example.label
              = List.replicate
                  (smallFS.listDir (pathJoin "root" "neg")).length Label.neg) :=
  ⟨by decide, claim_C1 smallFS "root" (by decide)⟩

/-- C2: every yielded example is exactly the stripped content of its file
(the processed prefix of the work list, element for element), the text of a
readable file's example is `pyStrip` of its content with no other
transformation, and stripping is idempotent. -/
theorem claim_C2 (fs : FS) (d : String) :
    ((generate_examples fs d).1
        = ((allFiles fs d).takeWhile (readOk fs)).map (mkExample fs))
      ∧ (∀ f c lab, fs.readFile f = some c →
          (mkExample fs (f, lab)).text = pyStrip c)
      ∧ (∀ s, pyStrip (pyStrip s) = pyStrip s) := by
  refine ⟨?_, ?_, pyStrip_idem⟩
  · rw [generate_examples_eq]
  · intro f c lab h
    simp [mkExample, h]

/-- C2 witness: the single readable review of the example corpus. -/
theorem claim_C2_witness :
    (mkExample exampleFS ("train/pos/review.txt", Label.pos)).text
      = pyStrip "Great movie!\n" :=
  (claim_C2 exampleFS "train").2.1 "train/pos/review.txt" "Great movie!\n"
    Label.pos (by decide)

/-- C3: the vocabulary feeder yields, element for element and in order,
exactly the text field of each example the generator produces over the same
directory (and fails at the same point). -/
theorem claim_C3 (fs : FS) (d : String) :
    (vocab_text_gen fs d).1 = (generate_examples fs d).1.map Example.text
      ∧ (vocab_text_gen fs d).2 = (generate_examples fs d).2 :=
  ⟨rfl, rfl⟩

/-- C4: every run of `_split_generators` produces exactly two split
descriptors, `train` then `test`, each with 10 shards, whose source
directories are `<root>/train` and `<root>/test` for the extracted archive
root `<root> = <extraction path>/aclImdb`. -/
theorem claim_C4 (cfg : IMDBReviewsConfig) (fs : FS) (dl : DLManager) :
    (split_generators cfg fs dl).1
      = [ { name := "train", num_shards := 10,
            directory :=
              pathJoin
                (pathJoin (dl.download_and_extract _DOWNLOAD_URL) "aclImdb")
                "train" },
          { name := "test", num_shards := 10,
            directory :=
              pathJoin
                (pathJoin (dl.download_and_extract _DOWNLOAD_URL) "aclImdb")
                "test" } ] := rfl

/-- C5: a dataset build performs the vocabulary build exactly once when the
active configuration's encoding strategy is subword-based (`subwords8k`,
`subwords32k`) and zero times for `plain_text` and `bytes`. -/
theorem claim_C5 (cfg : IMDBReviewsConfig) (fs : FS) (dl : DLManager)
    (h : cfg ∈ BUILDER_CONFIGS) :
    (split_generators cfg fs dl).2
      = if cfg.name = "subwords8k" ∨ cfg.name = "subwords32k" then 1
        else 0 := by
  have hc : cfg = { name := "plain_text", version := "0.0.1", strategy := .plainText }
      ∨ cfg = { name := "bytes", version := "0.0.1", strategy := .byteLevel }
      ∨ cfg = { name := "subwords8k", version := "0.0.1", strategy := .subword (2 ^ 13) }
      ∨ cfg = { name := "subwords32k", version := "0.0.1", strategy := .subword (2 ^ 15) } := by
    simpa [BUILDER_CONFIGS] using h
  rcases hc with h1 | h1 | h1 | h1 <;> subst h1 <;> rfl

/-- C5 witness: the `subwords8k` configuration builds the vocabulary once. -/
theorem claim_C5_witness :
    (split_generators subwords8kConfig emptyFS fixedDL).2
      = if subwords8kConfig.name = "subwords8k"
            ∨ subwords8kConfig.name = "subwords32k" then 1
        else 0 :=
  claim_C5 subwords8kConfig emptyFS fixedDL (by decide)

/-- C6: labels depend only on the subdirectory, never on file content: the
label sequence of any run is a prefix of N times `pos` followed by M times
`neg` (so every `pos`-directory file yields `pos`, every `neg`-directory
file yields `neg`, and no other label occurs), a successful run realises
that whole sequence, and two successful runs over filesystems with the same
listings (contents free) yield identical label sequences. -/
theorem claim_C6 (fs fs2 : FS) (d : String)
    (hlist : fs2.listDir = fs.listDir) :
    (∃ t, (generate_examples fs d).1.map Example.label ++ t
        = List.replicate (fs.listDir (pathJoin d "pos")).length Label.pos
          ++ List.replicate (fs.listDir (pathJoin d "neg")).length Label.neg)
      ∧ ((generate_examples fs d).2 = true →
          (generate_examples fs d).1.map Example.label
            = List.replicate (fs.listDir (pathJoin d "pos")).length Label.pos
              ++ List.replicate (fs.listDir (pathJoin d "neg")).length
                  Label.neg)
      ∧ ((generate_examples fs d).2 = true →
          (generate_examples fs2 d).2 = true →
          (generate_examples fs2 d).1.map Example.label
            = (generate_examples fs d).1.map Example.label) := by
  refine ⟨?_, ?_, ?_⟩
  · refine ⟨((allFiles fs d).dropWhile (readOk fs)).map Prod.snd, ?_⟩
    rw [generate_examples_eq]
    have hcomp : Example.label ∘ mkExample fs = Prod.snd := rfl
    rw [List.map_map, hcomp, ← List.map_append,
      List.takeWhile_append_dropWhile, map_snd_allFiles]
  · intro h
    exact map_label_all_ok fs d (by rwa [generate_examples_eq] at h)
  · intro h1 h2
    have e1 := map_label_all_ok fs d (by rwa [generate_examples_eq] at h1)
    have e2 := map_label_all_ok fs2 d (by rwa [generate_examples_eq] at h2)
    rw [e1, e2, hlist]

/-- C6 witness: the label sequence of the small corpus is a prefix of the
canonical pos-then-neg sequence. -/
theorem claim_C6_witness :
    ∃ t, (generate_examples smallFS "root").1.map Example.label ++ t
        = List.replicate (smallFS.listDir (pathJoin "root" "pos")).length
            Label.pos
          ++ List.replicate (smallFS.listDir (pathJoin "root" "neg")).length
              Label.neg :=
  (claim_C6 smallFS smallFS "root" rfl).1

/-- C7: over a `train` directory whose `pos` subdirectory holds exactly one
file with content `"Great movie!\n"` and whose `neg` subdirectory is empty,
the generator yields exactly one example, `text = "Great movie!"`,
`label = pos`. -/
theorem claim_C7 :
    generate_examples exampleFS "train"
      = ([{ text := "Great movie!", label := Label.pos }], true) := by
  decide

/-- C8: if some file of the work list cannot be read, the run fails (flag
`false`), yields exactly the examples of the files processed before the
first failure, and in particular yields nothing for the failing file or any
later file. -/
theorem claim_C8 (fs : FS) (d : String)
    (h : ∃ e ∈ allFiles fs d, fs.readFile e.1 = none) :
    (generate_examples fs d).2 = false
      ∧ (generate_examples fs d).1
          = ((allFiles fs d).takeWhile (readOk fs)).map (mkExample fs)
      ∧ (generate_examples fs d).1.length < (allFiles fs d).length := by
  obtain ⟨e, hmem, hnone⟩ := h
  have hfalse : (allFiles fs d).all (readOk fs) = false := by
    rw [List.all_eq_false]
    exact ⟨e, hmem, by simp [readOk, hnone]⟩
  refine ⟨?_, ?_, ?_⟩
  · rw [generate_examples_eq]
    exact hfalse
  · rw [generate_examples_eq]
  · rw [generate_examples_eq]
    simpa using takeWhile_length_lt (readOk fs) (allFiles fs d) hfalse

/-- C8 witness: a corpus whose second `pos` file is unreadable. -/
theorem claim_C8_witness :
    (generate_examples failFS "root").2 = false
      ∧ (generate_examples failFS "root").1
          = ((allFiles failFS "root").takeWhile (readOk failFS)).map
              (mkExample failFS)
      ∧ (generate_examples failFS "root").1.length
          < (allFiles failFS "root").length :=
  claim_C8 failFS "root"
    ⟨("root/pos/broken.txt", Label.pos), by decide, by decide⟩

/-- C9: the generator is deterministic and restartable: two runs over
filesystems presenting the same directory listings and the same file
contents produce identical example sequences (and identical success
flags). -/
theorem claim_C9 (fs1 fs2 : FS) (d : String)
    (hl : fs1.listDir = fs2.listDir) (hr : fs1.readFile = fs2.readFile) :
    generate_examples fs1 d = generate_examples fs2 d := by
  have h12 : fs1 = fs2 := by
    cases fs1
    cases fs2
    congr 1
  rw [h12]

/-- C9 witness: rerunning the generator over the example corpus reproduces
the same sequence. -/
theorem claim_C9_witness :
    generate_examples exampleFS "train" = generate_examples exampleFS "train" :=
  claim_C9 exampleFS exampleFS "train" rfl rfl

/-- C10: for every configuration, the metadata's label feature is a class
label with names exactly `["neg", "pos"]`, so `neg` is encoded as index 0
and `pos` as index 1. -/
theorem claim_C10 (cfg : IMDBReviewsConfig) :
    (info cfg).features.label.names = ["neg", "pos"]
      ∧ (info cfg).features.label.encode "neg" = 0
      ∧ (info cfg).features.label.encode "pos" = 1 :=
  ⟨rfl, rfl, rfl⟩

end IMDB
